import Mathlib

/-!
Verification of `deadlock/core.py` (a stateless Python implementation of
minilock.io) against its design specification.

The file shallowly embeds the functions of `deadlock/core.py`:
`Settings`, `check_passphrase`, `make_random_phrase`, `make_lock_securely`,
`encrypt_file`, `decrypt_file`, and the recipient-list construction of
`main_encrypt`.

External collaborators that `core.py` imports but whose sources are not part
of the core module — the `passwords` package (`zxcvbn.password_strength`,
`phrase.generate_phrase`) and the `crypto` package (`UserLock`,
`MiniLockFile`, `assert_type_and_length`, `b64encode`/`b64decode`) — are
treated as follows: the strength estimator and phrase generator are
parameters of the embedding (the spec declares them external interfaces),
and the `crypto` container layer is modelled from the spec (§3–§4.5), since
its module is not among the given sources.

Machine-level conventions: byte strings are `List Nat`; the filesystem is a
partial map from path strings to nodes (regular file with contents, or
directory); Python exceptions become `Except`/`Option` results.
-/

namespace Deadlock

/-- Score record returned by the passphrase strength estimator.  Mirrors the
fields of the dict returned by `zxcvbn.password_strength` that `core.py`
reads: `score['entropy']` and `score['crack_time_display']`. -/
structure Score where
  entropy : Nat
  crack_time_display : String
  deriving DecidableEq, Repr

/-- The external strength estimator `zxcvbn.password_strength(pp,
user_inputs=[...])`: a function of the candidate passphrase and the context
hints.  `core.py` imports it from the `passwords` package; the spec lists it
as the external interface `estimateStrength`. -/
abbrev Estimator := String → List String → Score

/-- Embedding of `class Settings` from `core.py`: two class attributes,
`minPassphraseEntropy = 100` and `minKeyEntropy = 100`.  The Python class
attributes are process-global configuration; the embedding passes the
record explicitly to the functions that read it. -/
structure Settings where
  minPassphraseEntropy : Nat
  minKeyEntropy : Nat
  deriving DecidableEq, Repr

/-- The default values of `Settings` in `core.py`: both thresholds are 100. -/
def Settings.default : Settings := ⟨100, 100⟩

/-- Splitting a character list on a separator character; the char-level
semantics of Python `s.split(sep)` for a one-character separator (always at
least one group; empty input gives one empty group, like `"".split`). -/
def splitOnChar (sep : Char) : List Char → List (List Char)
  | [] => [[]]
  | x :: xs =>
    match splitOnChar sep xs with
    | [] => [[]]
    | g :: gs => if x = sep then [] :: g :: gs else (x :: g) :: gs

/-- Joining character groups with a separator character, the inverse
direction of `splitOnChar` (Python `sep.join`). -/
def joinWithChar (sep : Char) : List (List Char) → List Char
  | [] => []
  | [g] => g
  | g :: gs => g ++ sep :: joinWithChar sep gs

/-- Python `domain.rsplit(".", 1)[0]`: everything before the last `"."`, or
the whole string when it contains no `"."`. -/
def rsplitDotHead (d : String) : String :=
  let parts := splitOnChar (Char.ofNat 46) d.toList
  if parts.length ≤ 1 then d
  else String.mk (joinWithChar (Char.ofNat 46) parts.dropLast)

/-- The `try`/`except` email parsing of `check_passphrase`: Python
`user, domain = email.split("@")` succeeds exactly when the split yields two
parts; then `domain = domain.rsplit(".", 1)[0]`.  On any failure the
`except` branch sets `user = email` and `domain = email`.  Returns the
`user_inputs` list handed to the estimator. -/
def emailHints (email : String) : List String :=
  match splitOnChar (Char.ofNat 64) email.toList with
  | [user, domain] => [String.mk user, rsplitDotHead (String.mk domain)]
  | _ => [email, email]

/-- Embedding of `check_passphrase(pp, email)` from `core.py`: parses the
email into context hints, calls the strength estimator, and compares the
entropy against `Settings.minKeyEntropy` (note: the code reads
`minKeyEntropy`, not `minPassphraseEntropy`).  Returns the `(bool, score)`
pair the Python function returns. -/
def check_passphrase (est : Estimator) (settings : Settings)
    (pp email : String) : Bool × Score :=
  let score := est pp (emailHints email)
  if score.entropy ≥ settings.minKeyEntropy then (true, score)
  else (false, score)

/-- Embedding of `make_random_phrase(email)` from `core.py`.  The external
generator `phrase.generate_phrase(7)` is modelled as a stream `gen` of its
successive return values; the Python `while True` loop becomes fuel-bounded
recursion (`none` = the loop has not terminated within `fuel` iterations).
The loop returns the first generated phrase that passes
`check_passphrase`. -/
def make_random_phrase (est : Estimator) (settings : Settings)
    (gen : Nat → String) (email : String) : Nat → Nat → Option String
  | _, 0 => none
  | idx, fuel + 1 =>
    let p := gen idx
    if (check_passphrase est settings p email).1 then some p
    else make_random_phrase est settings gen email (idx + 1) fuel

/-- Modelled from the spec: `crypto.UserLock`, the Identity of §3 — a key
pair derived deterministically from `(email, passphrase)` by
`IdentityDeriver.derive` (§4.1), with `id` a pure function of the public
key.  The `crypto` module is not among the given sources; since derivation
is a deterministic injective-by-intent function of the two secrets, the
identity is represented by the pair itself. -/
structure UserLock where
  email : String
  passphrase : String
  deriving DecidableEq, Repr

/-- Modelled from the spec: `crypto.UserLock.from_passphrase(email,
passphrase)` — the deterministic identity derivation of §4.1. -/
def UserLock.from_passphrase (email passphrase : String) : UserLock :=
  ⟨email, passphrase⟩

/-- Modelled from the spec: the public identifier string of an identity
(`userKey.userID` in `core.py`), a pure deterministic function of the
identity (§3: `id` is a pure function of `publicKey`). -/
def UserLock.userID (l : UserLock) : String :=
  l.email ++ "/" ++ l.passphrase

/-- Embedding of `make_lock_securely()` from `core.py`.  The terminal
interaction is modelled by the entered email and the list of successive
passphrases the user types at the `getpass` prompt.  The loop re-prompts
(moving to the next list element) until `check_passphrase` approves an
entry; only then is `crypto.UserLock.from_passphrase(email, passphrase)`
invoked on the approved entry.  `none` = the user's entries ran out with
none approved (the Python loop would still be prompting).  The
`print`/suggestion statements in the loop body have no effect on the
result and are dropped. -/
def make_lock_securely (est : Estimator) (settings : Settings)
    (email : String) : List String → Option UserLock
  | [] => none
  | pp :: rest =>
    if (check_passphrase est settings pp email).1 then
      some (UserLock.from_passphrase email pp)
    else make_lock_securely est settings email rest

/-- A recipient argument of `encrypt_file`: per
`assert_type_and_length('recipient_key', recipient_key, (str,
crypto.UserLock))`, each element of `recipients` is either an identifier
string or a `UserLock`. -/
inductive Recipient where
  | str : String → Recipient
  | lock : UserLock → Recipient
  deriving DecidableEq, Repr

/-- Error taxonomy (§7) covering the failures the embedded operations can
raise: `osError` is the `OSError` raised by `encrypt_file` for a bad path,
`ioError` a failed Python `open`/read, the rest are the spec's
`InvalidIdentifier`, `TruncatedContainer`, `NoMatchingRecipient`, and a
base64 decode failure. -/
inductive Err where
  | osError
  | ioError
  | invalidIdentifier
  | badBase64
  | truncatedContainer
  | noMatchingRecipient
  deriving DecidableEq, Repr

/-- Modelled from the spec: byte strings as the operations observe them.
`raw` is an arbitrary byte sequence; `box` is the serialized miniLock
container (`crypto.MiniLockFile.new(...).contents`) carrying the file name,
the plaintext body, the sender identity and the recipient list (§3
Container; the `crypto` module defining the byte-level codec is not among
the given sources, so serialization is abstracted to the container value
itself); `b64Enc` is the base64 transport encoding `crypto.b64encode`. -/
inductive Bytes where
  | raw : List Nat → Bytes
  | box : String → Bytes → UserLock → List Recipient → Bytes
  | b64Enc : Bytes → Bytes
  deriving DecidableEq, Repr

/-- A filesystem node: a regular file with contents, or a directory. -/
inductive Node where
  | file : Bytes → Node
  | dir : Node
  deriving DecidableEq, Repr

/-- The filesystem as the embedded operations observe it: a partial map
from path strings to nodes. -/
abbrev FS := String → Option Node

/-- Python `os.path.split(file_path)[1]`: the component after the last
`"/"`. -/
def fileNamePart (path : String) : String :=
  String.mk ((splitOnChar (Char.ofNat 47) path.toList).getLastD path.toList)

/-- Modelled from the spec: validation of one recipient argument, the
`assert_type_and_length`/`IdentifierCodec` gate of §4.2 and §4.5 step 1.  A
`UserLock` value is already a valid identity; an identifier string is
checked by the codec, abstracted as the predicate `validID`. -/
def validRecipient (validID : String → Bool) : Recipient → Bool
  | .lock _ => true
  | .str s => validID s

/-- Modelled from the spec: `crypto.MiniLockFile.new(filename, contents,
sender, recipients).contents` — §4.5 `seal`.  The container records the
file name, the plaintext body, the sender (whose own entry is always
wrapped, §4.5 step 5) and the recipient list; every recipient entry
decrypts to the same file info. -/
def MiniLockFile.new (filename : String) (data : Bytes) (sender : UserLock)
    (recipients : List Recipient) : Bytes :=
  .box filename data sender recipients

/-- Modelled from the spec: `crypto.b64decode` as applied by
`decrypt_file(..., base64=True)` — inverts `crypto.b64encode`, failing on
input that is not base64 output. -/
def b64decode : Bytes → Except Err Bytes
  | .b64Enc b => .ok b
  | _ => .error .badBase64

/-- A parsed container: the header and body fields of
`crypto.MiniLockFile(contents)` (§4.5 `open` step 1). -/
structure Parsed where
  fileName : String
  data : Bytes
  sender : UserLock
  recipients : List Recipient
  deriving DecidableEq, Repr

/-- Modelled from the spec: the `crypto.MiniLockFile(contents)` constructor,
§4.5 `open` step 1 — parse the container, failing with a structural error
on malformed input. -/
def parseMiniLock : Bytes → Except Err Parsed
  | .box n d s r => .ok ⟨n, d, s, r⟩
  | _ => .error .truncatedContainer

/-- Modelled from the spec: does `key` hold an identity some entry of the
container is wrapped to?  Entries exist for the sender itself (§4.5 step 5)
and for each listed recipient — given either as an identity value or as the
identifier string of the identity's public key. -/
def keyMatches (key : UserLock) (sender : UserLock)
    (recipients : List Recipient) : Bool :=
  key = sender ∨ Recipient.lock key ∈ recipients
    ∨ Recipient.str key.userID ∈ recipients

/-- Modelled from the spec: `crypted.decrypt(recipient_key)` — §4.5 `open`
steps 2–4: scan the entries for one matching the caller's identity
(`NoMatchingRecipient` if none), then return `(fileName, plaintext)`. -/
def Parsed.decrypt (p : Parsed) (key : UserLock) :
    Except Err (String × Bytes) :=
  if keyMatches key p.sender p.recipients then .ok (p.fileName, p.data)
  else .error .noMatchingRecipient

/-- Embedding of `encrypt_file(file_path, sender, recipients)` from
`core.py`: validate every recipient, then the sender (in the embedding the
sender is a `UserLock` by type), then check the path is an existing regular
file (`OSError` otherwise), then read it and build the container.  Returns
the serialized container bytes. -/
def encrypt_file (validID : String → Bool) (fs : FS) (file_path : String)
    (sender : UserLock) (recipients : List Recipient) : Except Err Bytes :=
  if recipients.all (validRecipient validID) then
    match fs file_path with
    | some (.file data) =>
        .ok (MiniLockFile.new (fileNamePart file_path) data sender recipients)
    | _ => .error .osError
  else .error .invalidIdentifier

/-- Embedding of `decrypt_file(file_path, recipient_key, base64)` from
`core.py`: read the file (a failed `open` is an I/O error), base64-decode
when the flag is set, parse the container, and decrypt with the caller's
identity. -/
def decrypt_file (fs : FS) (file_path : String) (recipient_key : UserLock)
    (base64 : Bool) : Except Err (String × Bytes) := do
  let contents ← match fs file_path with
    | some (.file b) => Except.ok b
    | _ => Except.error Err.ioError
  let contents ← if base64 then b64decode contents else .ok contents
  let parsed ← parseMiniLock contents
  parsed.decrypt recipient_key

/-- Embedding of the recipient-list construction in `main_encrypt`:
`encrypt_file(A.path, userKey, [userKey] + A.recipient)` — the caller's own
identity is prepended to the identifiers supplied on the command line. -/
def mainEncryptRecipients (userKey : UserLock)
    (cli : List String) : List Recipient :=
  Recipient.lock userKey :: cli.map Recipient.str

/-!
Effect-level translation.  To settle the frame claims, the three operations
are translated a second time, in state-passing style over the process-wide
state the Python code can observe or mutate: the filesystem and the global
`Settings` class attributes.  Every primitive the Python code actually
performs is a read (`Settings.minKeyEntropy` lookup, `open(...,"rb")` +
`read()`); the translation makes each primitive's effect on the world
explicit, so that preservation of the world is a statement about the code,
not a typing convention.
-/

/-- The process-wide state visible to `core.py`: the filesystem and the
global `Settings` attributes. -/
abbrev World := FS × Settings

/-- The effect of Python `open(path, "rb")` + `read()`: look the path up in
the filesystem; the filesystem itself is returned unchanged (reading does
not alter it). -/
def readNode (path : String) : StateM World (Option Node) :=
  fun w => (w.1 path, w)

/-- The effect of reading the global `Settings` class attributes. -/
def getSettings : StateM World Settings :=
  fun w => (w.2, w)

/-- State-passing translation of `check_passphrase`: reads the global
settings, calls the estimator, compares; no write primitive occurs in the
Python function body. -/
def check_passphraseS (est : Estimator) (pp email : String) :
    StateM World (Bool × Score) := do
  let settings ← getSettings
  let score := est pp (emailHints email)
  if score.entropy ≥ settings.minKeyEntropy then pure (true, score)
  else pure (false, score)

/-- State-passing translation of `encrypt_file`: validation, one read of
the source file, container construction; no write primitive occurs in the
Python function body. -/
def encrypt_fileS (validID : String → Bool) (file_path : String)
    (sender : UserLock) (recipients : List Recipient) :
    StateM World (Except Err Bytes) := do
  if recipients.all (validRecipient validID) then
    let n ← readNode file_path
    match n with
    | some (.file data) =>
        pure (.ok (MiniLockFile.new (fileNamePart file_path) data sender
          recipients))
    | _ => pure (.error .osError)
  else pure (.error .invalidIdentifier)

/-- State-passing translation of `decrypt_file`: one read of the container
file, then pure decoding/parsing/decryption; no write primitive occurs in
the Python function body. -/
def decrypt_fileS (file_path : String) (recipient_key : UserLock)
    (base64 : Bool) : StateM World (Except Err (String × Bytes)) := do
  let n ← readNode file_path
  match n with
  | some (.file contents) =>
    match (if base64 then b64decode contents else .ok contents) with
    | .ok c =>
      match parseMiniLock c with
      | .ok parsed => pure (parsed.decrypt recipient_key)
      | .error e => pure (.error e)
    | .error e => pure (.error e)
  | _ => pure (.error .ioError)

deriving instance DecidableEq for Except

/-!  Helper lemmas shared by the claim theorems.  -/

/-- The boolean returned by `check_passphrase` is exactly the comparison of
the estimator's entropy against `Settings.minKeyEntropy`. -/
theorem check_passphrase_fst (est : Estimator) (settings : Settings)
    (pp email : String) :
    (check_passphrase est settings pp email).1 = true ↔
      settings.minKeyEntropy ≤ (est pp (emailHints email)).entropy := by
  unfold check_passphrase
  by_cases h : (est pp (emailHints email)).entropy ≥ settings.minKeyEntropy
  · simp [h]
  · simp [h]

/-- The score returned by `check_passphrase` is the estimator's score,
unmodified. -/
theorem check_passphrase_snd (est : Estimator) (settings : Settings)
    (pp email : String) :
    (check_passphrase est settings pp email).2 = est pp (emailHints email) := by
  unfold check_passphrase
  by_cases h : (est pp (emailHints email)).entropy ≥ settings.minKeyEntropy
  · simp [h]
  · simp [h]

/-- A sample strength estimator for concrete evaluations: ten bits per
character, no context sensitivity. -/
def estTen : Estimator := fun p _ => ⟨10 * p.length, "instant"⟩

/-- A sample strength estimator that scores every candidate at 150 bits. -/
def estFlat : Estimator := fun _ _ => ⟨150, "centuries"⟩

/-- C2: in `make_lock_securely` (at the default settings, whose threshold is
100), `crypto.UserLock.from_passphrase` is only reached with a passphrase
that has previously satisfied `check_passphrase` for the entered email — so
its estimated entropy is at least 100 bits. -/
theorem make_lock_securely_gates_derivation
    (est : Estimator) (email : String) (inputs : List String)
    (lock : UserLock)
    (h : make_lock_securely est Settings.default email inputs = some lock) :
    (check_passphrase est Settings.default lock.passphrase email).1 = true ∧
    100 ≤ (est lock.passphrase (emailHints email)).entropy := by
  induction inputs with
  | nil => simp [make_lock_securely] at h
  | cons pp rest ih =>
    rw [make_lock_securely] at h
    by_cases hc : (check_passphrase est Settings.default pp email).1 = true
    · rw [if_pos hc] at h
      obtain rfl := Option.some.inj h
      exact ⟨hc, (check_passphrase_fst est Settings.default pp email).mp hc⟩
    · rw [if_neg hc] at h
      exact ih h

/-- Concrete run of `make_lock_securely_gates_derivation`: the user types a
weak passphrase (rejected), then a strong one, which is the one derived
from. -/
theorem make_lock_securely_gates_derivation_witness :
    (check_passphrase estTen Settings.default
      "a very long and strong passphrase" "alice@example.com").1 = true ∧
    100 ≤ (estTen "a very long and strong passphrase"
      (emailHints "alice@example.com")).entropy :=
  make_lock_securely_gates_derivation estTen "alice@example.com"
    ["weak", "a very long and strong passphrase"]
    ⟨"alice@example.com", "a very long and strong passphrase"⟩ (by decide)

/-- C7: the identity returned by `make_lock_securely` is always derived from
one of the passphrases the user typed (the generated suggestion is only
printed, never substituted), and it is exactly
`UserLock.from_passphrase` of the entered email and that typed
passphrase. -/
theorem make_lock_securely_uses_typed_passphrase
    (est : Estimator) (settings : Settings) (email : String)
    (inputs : List String) (lock : UserLock)
    (h : make_lock_securely est settings email inputs = some lock) :
    lock.passphrase ∈ inputs ∧
    lock = UserLock.from_passphrase email lock.passphrase := by
  induction inputs with
  | nil => simp [make_lock_securely] at h
  | cons pp rest ih =>
    rw [make_lock_securely] at h
    by_cases hc : (check_passphrase est settings pp email).1 = true
    · rw [if_pos hc] at h
      obtain rfl := Option.some.inj h
      exact ⟨List.mem_cons_self _ _, rfl⟩
    · rw [if_neg hc] at h
      obtain ⟨h1, h2⟩ := ih h
      exact ⟨List.mem_cons_of_mem _ h1, h2⟩

/-- Concrete run of `make_lock_securely_uses_typed_passphrase`. -/
theorem make_lock_securely_uses_typed_passphrase_witness :
    "this passphrase is long enough" ∈
      ["pw", "this passphrase is long enough"] ∧
    (⟨"bob@example.com", "this passphrase is long enough"⟩ : UserLock) =
      UserLock.from_passphrase "bob@example.com"
        "this passphrase is long enough" :=
  make_lock_securely_uses_typed_passphrase estTen Settings.default
    "bob@example.com" ["pw", "this passphrase is long enough"]
    ⟨"bob@example.com", "this passphrase is long enough"⟩ (by decide)

/-- C10: whenever `make_random_phrase` terminates with a phrase, that phrase
satisfies `check_passphrase` for the given email — the loop can only exit by
returning a passing phrase. -/
theorem make_random_phrase_returns_passing
    (est : Estimator) (settings : Settings) (gen : Nat → String)
    (email : String) (idx fuel : Nat) (p : String)
    (h : make_random_phrase est settings gen email idx fuel = some p) :
    (check_passphrase est settings p email).1 = true := by
  induction fuel generalizing idx with
  | zero => simp [make_random_phrase] at h
  | succ n ih =>
    rw [make_random_phrase] at h
    by_cases hc : (check_passphrase est settings (gen idx) email).1 = true
    · rw [if_pos hc] at h
      obtain rfl := Option.some.inj h
      exact hc
    · rw [if_neg hc] at h
      exact ih _ h

/-- Concrete run of `make_random_phrase_returns_passing`: the generator's
first phrase fails the gate, its second passes and is returned. -/
theorem make_random_phrase_returns_passing_witness :
    (check_passphrase estTen Settings.default
      "river ocean meadow forest stone cloud ember"
      "carol@example.com").1 = true :=
  make_random_phrase_returns_passing estTen Settings.default
    (fun n => if n = 0 then "short"
      else "river ocean meadow forest stone cloud ember")
    "carol@example.com" 0 2
    "river ocean meadow forest stone cloud ember" (by decide)

/-- C9: `check_passphrase` is total on arbitrary string pairs: when the
email does not split into exactly two `"@"`-separated parts, the `except`
branch makes both context hints the whole email string, and the function
still returns its `(bool, score)` pair, the bool being the threshold
comparison. -/
theorem check_passphrase_total_fallback (email : String)
    (h : (splitOnChar (Char.ofNat 64) email.toList).length ≠ 2) :
    emailHints email = [email, email] ∧
    ∀ est : Estimator, ∀ settings : Settings, ∀ pp : String,
      (check_passphrase est settings pp email).2 = est pp [email, email] ∧
      ((check_passphrase est settings pp email).1 = true ↔
        settings.minKeyEntropy ≤ (est pp [email, email]).entropy) := by
  have hints : emailHints email = [email, email] := by
    unfold emailHints
    rcases hsp : splitOnChar (Char.ofNat 64) email.toList with _ | ⟨a, _ | ⟨b, t⟩⟩
    · rfl
    · rfl
    · cases t with
      | nil => exact absurd (by rw [hsp]; rfl) h
      | cons c t' => rfl
  refine ⟨hints, fun est settings pp => ?_⟩
  rw [check_passphrase_snd, check_passphrase_fst, hints]
  exact ⟨rfl, Iff.rfl⟩

/-- Concrete run of `check_passphrase_total_fallback` on a string with no
`"@"` at all. -/
theorem check_passphrase_total_fallback_witness :
    emailHints "not-an-email" = ["not-an-email", "not-an-email"] ∧
    ∀ est : Estimator, ∀ settings : Settings, ∀ pp : String,
      (check_passphrase est settings pp "not-an-email").2 =
        est pp ["not-an-email", "not-an-email"] ∧
      ((check_passphrase est settings pp "not-an-email").1 = true ↔
        settings.minKeyEntropy ≤
          (est pp ["not-an-email", "not-an-email"]).entropy) :=
  check_passphrase_total_fallback "not-an-email" (by decide)

/-- C6 (code bug): `check_passphrase` compares the entropy against
`Settings.minKeyEntropy`, not `Settings.minPassphraseEntropy`.  With the
passphrase threshold raised to 200 and the key threshold left at 100, a
passphrase scored at 150 bits — below the configured passphrase threshold —
still passes the gate. -/
theorem check_passphrase_ignores_minPassphraseEntropy :
    (Settings.mk 200 100).minPassphraseEntropy = 200 ∧
    (estFlat "some passphrase" (emailHints "user@example.com")).entropy = 150 ∧
    (check_passphrase estFlat (Settings.mk 200 100)
      "some passphrase" "user@example.com").1 = true := by
  refine ⟨rfl, rfl, ?_⟩
  decide

/-- Unfolding lemma for `Except` bind: a bound computation succeeds exactly
when both stages succeed in sequence. -/
theorem exceptBind_eq_ok {ε α β : Type} (x : Except ε α) (f : α → Except ε β)
    (b : β) : (x >>= f) = .ok b ↔ ∃ a, x = .ok a ∧ f a = .ok b := by
  cases x with
  | error e => simp [Bind.bind, Except.bind]
  | ok a => simp [Bind.bind, Except.bind]

/-- C1: round trip.  A container produced by `encrypt_file` and stored in a
file, then opened via `decrypt_file` with the identity of any recipient in
the set — or with the sender's own identity — returns exactly the original
`(filename, plaintext)` pair. -/
theorem encrypt_decrypt_roundtrip
    (validID : String → Bool) (fs fsOut : FS) (path cpath : String)
    (sender key : UserLock) (recipients : List Recipient) (data c : Bytes)
    (hfile : fs path = some (.file data))
    (henc : encrypt_file validID fs path sender recipients = .ok c)
    (hkey : key = sender ∨ Recipient.lock key ∈ recipients)
    (hstore : fsOut cpath = some (.file c)) :
    decrypt_file fsOut cpath key false = .ok (fileNamePart path, data) := by
  cases hv : recipients.all (validRecipient validID) with
  | false => simp [encrypt_file, hv] at henc
  | true =>
    simp only [encrypt_file, hv, hfile, if_true] at henc
    obtain rfl := Except.ok.inj henc
    have hk : keyMatches key sender recipients = true := by
      unfold keyMatches
      rcases hkey with h | h
      · simp [h]
      · simp [h]
    simp [decrypt_file, hstore, MiniLockFile.new, parseMiniLock,
      Parsed.decrypt, hk, Bind.bind, Except.bind]

/-- Concrete run of `encrypt_decrypt_roundtrip`: Alice seals `docs/hi.txt`
to Bob; Bob opens the stored container and recovers `("hi.txt", hi)`. -/
theorem encrypt_decrypt_roundtrip_witness :
    decrypt_file
      (fun p => if p = "out.minilock" then
        some (Node.file (Bytes.box "hi.txt" (Bytes.raw [104, 105])
          ⟨"alice@example.com", "correct horse battery staple"⟩
          [Recipient.lock ⟨"bob@example.com", "another strong passphrase"⟩]))
        else none)
      "out.minilock" ⟨"bob@example.com", "another strong passphrase"⟩ false
      = .ok ("hi.txt", Bytes.raw [104, 105]) :=
  encrypt_decrypt_roundtrip (fun _ => true)
    (fun p => if p = "docs/hi.txt" then
      some (Node.file (Bytes.raw [104, 105])) else none)
    (fun p => if p = "out.minilock" then
      some (Node.file (Bytes.box "hi.txt" (Bytes.raw [104, 105])
        ⟨"alice@example.com", "correct horse battery staple"⟩
        [Recipient.lock ⟨"bob@example.com", "another strong passphrase"⟩]))
      else none)
    "docs/hi.txt" "out.minilock"
    ⟨"alice@example.com", "correct horse battery staple"⟩
    ⟨"bob@example.com", "another strong passphrase"⟩
    [Recipient.lock ⟨"bob@example.com", "another strong passphrase"⟩]
    (Bytes.raw [104, 105])
    (Bytes.box "hi.txt" (Bytes.raw [104, 105])
      ⟨"alice@example.com", "correct horse battery staple"⟩
      [Recipient.lock ⟨"bob@example.com", "another strong passphrase"⟩])
    (by decide) (by decide) (by decide) (by decide)

/-- C3: `decrypt_file` succeeds exactly when every stage succeeds — the
container file is read, the (optional) base64 decode succeeds, the
container parses, and an entry matches the caller's identity; any stage
failure propagates as an error, so no plaintext is returned on failure. -/
theorem decrypt_file_requires_all_stages
    (fs : FS) (path : String) (key : UserLock) (b64 : Bool)
    (n : String) (d : Bytes) :
    decrypt_file fs path key b64 = .ok (n, d) ↔
      ∃ raw c sender recips,
        fs path = some (.file raw) ∧
        (if b64 then b64decode raw else .ok raw) = .ok c ∧
        parseMiniLock c = .ok ⟨n, d, sender, recips⟩ ∧
        keyMatches key sender recips = true := by
  cases hfs : fs path with
  | none => simp [decrypt_file, hfs, Bind.bind, Except.bind]
  | some node =>
    cases node with
    | dir => simp [decrypt_file, hfs, Bind.bind, Except.bind]
    | file raw =>
      cases b64 with
      | false =>
        cases hp : parseMiniLock raw with
        | error e => simp [decrypt_file, hfs, hp, Bind.bind, Except.bind]
        | ok parsed =>
          obtain ⟨pn, pd, ps, pr⟩ := parsed
          cases hk : keyMatches key ps pr with
          | false =>
            simp [decrypt_file, hfs, hp, hk, Parsed.decrypt, Bind.bind,
              Except.bind, Parsed.mk.injEq]
            rintro x y _ _ rfl rfl
            exact hk
          | true =>
            simp [decrypt_file, hfs, hp, hk, Parsed.decrypt, Bind.bind,
              Except.bind, Parsed.mk.injEq]
            constructor
            · rintro ⟨rfl, rfl⟩
              exact ⟨ps, pr, ⟨rfl, rfl, rfl, rfl⟩, hk⟩
            · rintro ⟨x, y, ⟨h1, h2, _, _⟩, _⟩
              exact ⟨h1, h2⟩
      | true =>
        cases hdec : b64decode raw with
        | error e => simp [decrypt_file, hfs, hdec, Bind.bind, Except.bind]
        | ok c =>
          cases hp : parseMiniLock c with
          | error e =>
            simp [decrypt_file, hfs, hdec, hp, Bind.bind, Except.bind]
          | ok parsed =>
            obtain ⟨pn, pd, ps, pr⟩ := parsed
            cases hk : keyMatches key ps pr with
            | false =>
              simp [decrypt_file, hfs, hdec, hp, hk, Parsed.decrypt,
                Bind.bind, Except.bind, Parsed.mk.injEq]
              rintro x y _ _ rfl rfl
              exact hk
            | true =>
              simp [decrypt_file, hfs, hdec, hp, hk, Parsed.decrypt,
                Bind.bind, Except.bind, Parsed.mk.injEq]
              constructor
              · rintro ⟨rfl, rfl⟩
                exact ⟨ps, pr, ⟨rfl, rfl, rfl, rfl⟩, hk⟩
              · rintro ⟨x, y, ⟨h1, h2, _, _⟩, _⟩
                exact ⟨h1, h2⟩

/-- C4: `encrypt_file` validates every recipient before touching the
filesystem — an invalid recipient aborts with `InvalidIdentifier` on every
filesystem, so the file is never read — and a path that is not an existing
regular file aborts with `OSError`; in both cases no container is
produced. -/
theorem encrypt_file_validates_first
    (validID : String → Bool) (path : String) (sender : UserLock)
    (recipients : List Recipient) :
    (recipients.all (validRecipient validID) = false →
      ∀ fs : FS, encrypt_file validID fs path sender recipients =
        .error .invalidIdentifier) ∧
    (∀ fs : FS, recipients.all (validRecipient validID) = true →
      (∀ data, fs path ≠ some (.file data)) →
      encrypt_file validID fs path sender recipients = .error .osError) := by
  constructor
  · intro hv fs
    simp [encrypt_file, hv]
  · intro fs hv hpath
    cases hfs : fs path with
    | none => simp [encrypt_file, hv, hfs]
    | some node =>
      cases node with
      | dir => simp [encrypt_file, hv, hfs]
      | file data => exact absurd hfs (hpath data)

/-- Concrete run of `encrypt_file_validates_first`: a rejected identifier
string aborts with `InvalidIdentifier` even on an empty filesystem, and a
missing path aborts with `OSError`. -/
theorem encrypt_file_validates_first_witness :
    encrypt_file (fun _ => false) (fun _ => none) "a/b.txt"
      ⟨"alice@example.com", "correct horse battery staple"⟩
      [Recipient.str "badid"] = .error .invalidIdentifier ∧
    encrypt_file (fun _ => false) (fun _ => none) "a/b.txt"
      ⟨"alice@example.com", "correct horse battery staple"⟩
      [] = .error .osError :=
  ⟨(encrypt_file_validates_first (fun _ => false) "a/b.txt"
      ⟨"alice@example.com", "correct horse battery staple"⟩
      [Recipient.str "badid"]).1 (by decide) (fun _ => none),
   (encrypt_file_validates_first (fun _ => false) "a/b.txt"
      ⟨"alice@example.com", "correct horse battery staple"⟩ []).2
      (fun _ => none) (by decide)
      (fun data h => Option.noConfusion h)⟩

/-- C5: every container `encrypt_file` produces is wrapped so that the
sender's own identity decrypts it; moreover the recipient list
`main_encrypt` passes in always lists the caller's own identity first,
whatever identifiers were supplied on the command line. -/
theorem encrypt_file_sender_can_decrypt
    (validID : String → Bool) (fs : FS) (path : String) (sender : UserLock)
    (recipients : List Recipient) (c : Bytes)
    (henc : encrypt_file validID fs path sender recipients = .ok c) :
    (∃ p : Parsed, parseMiniLock c = .ok p ∧ p.sender = sender ∧
      p.decrypt sender = .ok (fileNamePart path, p.data)) ∧
    ∀ cli : List String,
      Recipient.lock sender ∈ mainEncryptRecipients sender cli := by
  constructor
  · cases hv : recipients.all (validRecipient validID) with
    | false => simp [encrypt_file, hv] at henc
    | true =>
      cases hfs : fs path with
      | none => simp [encrypt_file, hv, hfs] at henc
      | some node =>
        cases node with
        | dir => simp [encrypt_file, hv, hfs] at henc
        | file data =>
          simp only [encrypt_file, hv, hfs, if_true] at henc
          obtain rfl := Except.ok.inj henc
          refine ⟨⟨fileNamePart path, data, sender, recipients⟩, rfl, rfl, ?_⟩
          simp [Parsed.decrypt, keyMatches, MiniLockFile.new]
  · intro cli
    exact List.mem_cons_self _ _

/-- Concrete run of `encrypt_file_sender_can_decrypt`: Alice seals a file
to Bob only; her own identity still decrypts the container. -/
theorem encrypt_file_sender_can_decrypt_witness :
    (∃ p : Parsed,
      parseMiniLock (Bytes.box "b.txt" (Bytes.raw [1, 2, 3])
        ⟨"alice@example.com", "correct horse battery staple"⟩
        [Recipient.str "GBZ6PBmBw"]) = .ok p ∧
      p.sender = ⟨"alice@example.com", "correct horse battery staple"⟩ ∧
      p.decrypt ⟨"alice@example.com", "correct horse battery staple"⟩ =
        .ok (fileNamePart "a/b.txt", p.data)) ∧
    ∀ cli : List String,
      Recipient.lock ⟨"alice@example.com", "correct horse battery staple"⟩ ∈
        mainEncryptRecipients
          ⟨"alice@example.com", "correct horse battery staple"⟩ cli :=
  encrypt_file_sender_can_decrypt (fun _ => true)
    (fun p => if p = "a/b.txt" then some (Node.file (Bytes.raw [1, 2, 3]))
      else none)
    "a/b.txt" ⟨"alice@example.com", "correct horse battery staple"⟩
    [Recipient.str "GBZ6PBmBw"]
    (Bytes.box "b.txt" (Bytes.raw [1, 2, 3])
      ⟨"alice@example.com", "correct horse battery staple"⟩
      [Recipient.str "GBZ6PBmBw"])
    (by decide)

/-- C8: `check_passphrase`, `encrypt_file` and `decrypt_file` are free of
effects on shared state: running the state-passing translations on any
world (filesystem + global settings) returns exactly the pure functions'
values and leaves the world unchanged — the code only reads. -/
theorem operations_preserve_world
    (est : Estimator) (validID : String → Bool) (pp email path : String)
    (sender key : UserLock) (recipients : List Recipient) (b64 : Bool)
    (w : World) :
    (check_passphraseS est pp email).run w =
      (check_passphrase est w.2 pp email, w) ∧
    (encrypt_fileS validID path sender recipients).run w =
      (encrypt_file validID w.1 path sender recipients, w) ∧
    (decrypt_fileS path key b64).run w =
      (decrypt_file w.1 path key b64, w) := by
  refine ⟨?_, ?_, ?_⟩
  · by_cases h : (est pp (emailHints email)).entropy ≥ w.2.minKeyEntropy
    · simp [check_passphraseS, check_passphrase, getSettings, StateT.run,
        bind, StateT.bind, pure, StateT.pure, h]
    · simp [check_passphraseS, check_passphrase, getSettings, StateT.run,
        bind, StateT.bind, pure, StateT.pure, h]
  · cases hv : recipients.all (validRecipient validID) with
    | false =>
      simp [encrypt_fileS, encrypt_file, readNode, StateT.run, bind,
        StateT.bind, pure, StateT.pure, hv]
    | true =>
      cases hfs : w.1 path with
      | none =>
        simp [encrypt_fileS, encrypt_file, readNode, StateT.run, bind,
          StateT.bind, pure, StateT.pure, hv, hfs]
      | some node =>
        cases node <;>
          simp [encrypt_fileS, encrypt_file, readNode, StateT.run, bind,
            StateT.bind, pure, StateT.pure, hv, hfs]
  · cases hfs : w.1 path with
    | none =>
      simp [decrypt_fileS, decrypt_file, readNode, StateT.run, bind,
        StateT.bind, pure, StateT.pure, hfs, Bind.bind, Except.bind]
    | some node =>
      cases node with
      | dir =>
        simp [decrypt_fileS, decrypt_file, readNode, StateT.run, bind,
          StateT.bind, pure, StateT.pure, hfs, Bind.bind, Except.bind]
      | file contents =>
        cases b64 with
        | false =>
          cases hp : parseMiniLock contents with
          | error e =>
            simp [decrypt_fileS, decrypt_file, readNode, StateT.run, bind,
              StateT.bind, pure, StateT.pure, hfs, hp, Bind.bind,
              Except.bind]
          | ok parsed =>
            simp [decrypt_fileS, decrypt_file, readNode, StateT.run, bind,
              StateT.bind, pure, StateT.pure, hfs, hp, Bind.bind,
              Except.bind]
        | true =>
          cases hdec : b64decode contents with
          | error e =>
            simp [decrypt_fileS, decrypt_file, readNode, StateT.run, bind,
              StateT.bind, pure, StateT.pure, hfs, hdec, Bind.bind,
              Except.bind]
          | ok c =>
            cases hp : parseMiniLock c with
            | error e =>
              simp [decrypt_fileS, decrypt_file, readNode, StateT.run, bind,
                StateT.bind, pure, StateT.pure, hfs, hdec, hp, Bind.bind,
                Except.bind]
            | ok parsed =>
              simp [decrypt_fileS, decrypt_file, readNode, StateT.run, bind,
                StateT.bind, pure, StateT.pure, hfs, hdec, hp, Bind.bind,
                Except.bind]

end Deadlock
